import Mathlib

set_option maxRecDepth 8192

/-
Verification of the header-updating logic of the sostrades-pre-commit
repository.  The development shallowly embeds the two Python variants of
the `HeaderUpdater` class:

* `src/sostrades_pre_commit/update_headers.py` (the primary variant), and
* `src/header_updater_hook/update_headers.py` (the legacy variant).

File contents are modelled as `List Char`; the file system is a partial
map from path strings to contents.  Python string primitives used by the
code (`str.startswith`, `str.replace`, `str.split`, `re.search` with the
fixed pattern `Modifications on (.+) Copyright 20(..) Capgemini`) are
given explicit executable models below.
-/

/-- Shorthand turning a string literal into the character-list model of file
content. -/
def strL (s : String) : List Char := s.data

/-- Character model of a single quote, used to build the `'''` delimiter of
the header blocks without apostrophe literals. -/
def quoteChar : Char := Char.ofNat 39

/-- The `'''` delimiter of the header blocks (`HEADER_PATTERN`). -/
def tripleQuote : List Char := [quoteChar, quoteChar, quoteChar]

/-- Python `str.split(sep)` for a one-character separator: splits on every
occurrence, keeping empty fields, and yields at least one field. -/
def splitOnChar (sep : Char) : List Char → List (List Char)
  | [] => [[]]
  | c :: rest =>
    match splitOnChar sep rest with
    | [] => [[c]]
    | g :: gs => if c = sep then [] :: g :: gs else (c :: g) :: gs

/-- Whether `pat` occurs as a contiguous substring of the second list;
model of the Python `in` / substring-containment notion used to reason
about `str.replace`. -/
def occursIn (pat : List Char) : List Char → Bool
  | [] => pat.isEmpty
  | c :: rest => pat.isPrefixOf (c :: rest) || occursIn pat rest

/-- Fuel-driven core of Python `str.replace`: scan left to right, replace
every non-overlapping occurrence of `old` by `new`.  The fuel is always
instantiated with the length of the scanned list, which suffices because
each step consumes at least one character. -/
def pyReplaceFuel (old new : List Char) : Nat → List Char → List Char
  | 0, s => s
  | _ + 1, [] => []
  | fuel + 1, c :: rest =>
    if old.isPrefixOf (c :: rest) then
      new ++ pyReplaceFuel old new fuel ((c :: rest).drop old.length)
    else
      c :: pyReplaceFuel old new fuel rest

/-- Python `s.replace(old, new)`.  All call sites in the embedded code use a
non-empty `old`; the empty case is modelled as the identity. -/
def pyReplace (s old new : List Char) : List Char :=
  if old.isEmpty then s else pyReplaceFuel old new s.length s

/-- Whether a character is matched by `.` in the Python regex (any character
except a newline). -/
def notNL (c : Char) : Bool := !(c == '\n')

/-- Literal head of the modification-line regex: `Modifications on `
(17 characters). -/
def modifLead : List Char := strL "Modifications on "

/-- Literal middle of the modification-line regex: ` Copyright 20`
(13 characters). -/
def copyrightMid : List Char := strL " Copyright 20"

/-- Literal tail of the modification-line regex: ` Capgemini`
(10 characters). -/
def capgeminiTail : List Char := strL " Capgemini"

/-- Whether the part of the regex after the `(.+)` group, namely
` Copyright 20(..) Capgemini`, matches at the head of `t`; the two `(..)`
characters must not be newlines. -/
def tailPatternMatches (t : List Char) : Bool :=
  copyrightMid.isPrefixOf t &&
    (match t.drop 13 with
     | c1 :: c2 :: rest2 => notNL c1 && notNL c2 && capgeminiTail.isPrefixOf rest2
     | _ => false)

/-- Greedy search for the `(.+)` group length: try the largest candidate
`k` first, mirroring the backtracking of Python `re`.  A candidate `k`
succeeds when the first `k` characters contain no newline and the rest of
the pattern matches immediately after them. -/
def greedyFrom : Nat → List Char → Option Nat
  | 0, _ => none
  | k + 1, t =>
    if (t.take (k + 1)).all notNL && tailPatternMatches (t.drop (k + 1)) then
      some (k + 1)
    else greedyFrom k t

/-- Attempt to match the whole modification-line regex at the head of `s`,
returning the matched substring (group 0). -/
def matchModifAt (s : List Char) : Option (List Char) :=
  if modifLead.isPrefixOf s then
    match greedyFrom (s.drop 17).length (s.drop 17) with
    | some k => some (s.take (17 + k + 25))
    | none => none
  else none

/-- Model of `re.search(start_modif_regex, content)` returning group 0 of
the leftmost match of `Modifications on (.+) Copyright 20(..) Capgemini`. -/
def reSearchModif : List Char → Option (List Char)
  | [] => none
  | c :: rest =>
    match matchModifAt (c :: rest) with
    | some m => some m
    | none => reSearchModif rest

/-- The precomputed template strings held by a `HeaderUpdater` instance. -/
structure Headers where
  airbus_header : List Char
  cap_header : List Char
  modified_header : List Char
  today : List Char
  year : List Char

/-- The fixed Airbus copyright line (`AIRBUS_COPYRIGHT`). -/
def airbusCopyright : List Char := strL "Copyright 2022 Airbus SAS"

/-- The Capgemini copyright line (`CAP_COPYRIGHT`) filled with a year. -/
def capCopyright (year : List Char) : List Char :=
  strL "Copyright " ++ year ++ strL " Capgemini"

/-- The delimiter wrapping of `HEADER_PATTERN` in the sostrades_pre_commit
variant: the format string is three quotes, newline, body, newline, three
quotes, newline. -/
def headerWrap (x : List Char) : List Char :=
  tripleQuote ++ ('\n' :: x) ++ ('\n' :: tripleQuote) ++ ['\n']

/-- The delimiter wrapping of `HEADER_PATTERN` in the header_updater_hook
variant, which has no trailing newline after the closing quotes. -/
def hookHeaderWrap (x : List Char) : List Char :=
  tripleQuote ++ ('\n' :: x) ++ ('\n' :: tripleQuote)

/-- Template construction performed by `HeaderUpdater.__init__` of the
sostrades_pre_commit variant, from the license body text, the current date
(`%Y/%m/%d`) and the current year (`%Y`). -/
def mkHeaders (apache today year : List Char) : Headers :=
  { airbus_header := headerWrap (airbusCopyright ++ strL "\n\n" ++ apache)
    cap_header := headerWrap (capCopyright year ++ strL "\n\n" ++ apache)
    modified_header :=
      headerWrap (airbusCopyright ++ ('\n' :: (modifLead ++ today ++ (' ' :: capCopyright year)))
        ++ strL "\n\n" ++ apache)
    today := today
    year := year }

/-- Template construction performed by `HeaderUpdater.__init__` of the
header_updater_hook variant (same license body, hook delimiter wrapping). -/
def hookMkHeaders (apache today year : List Char) : Headers :=
  { airbus_header := hookHeaderWrap (airbusCopyright ++ strL "\n\n" ++ apache)
    cap_header := hookHeaderWrap (capCopyright year ++ strL "\n\n" ++ apache)
    modified_header :=
      hookHeaderWrap (airbusCopyright ++ ('\n' :: (modifLead ++ today ++ (' ' :: capCopyright year)))
        ++ strL "\n\n" ++ apache)
    today := today
    year := year }

/-- The updated modification line `updated_modified_pattern.format(first)`:
`Modifications on <first>-<today> Copyright <year> Capgemini`. -/
def updatedModifLine (H : Headers) (first : List Char) : List Char :=
  modifLead ++ first ++ ('-' :: H.today) ++ (' ' :: capCopyright H.year)

/-- A file system: a partial map from path strings to file contents. -/
abbrev FS := String → Option (List Char)

/-- Overwrite (or create) the file at `p` with content `c`. -/
def fsWrite (fs : FS) (p : String) (c : List Char) : FS :=
  fun q => if q = p then some c else fs q

/-- Pure content transformation of `check_header_added` (sostrades variant):
returns the new content and whether the file was changed. -/
def checkAddedContent (H : Headers) (content : List Char) : List Char × Bool :=
  if H.cap_header.isPrefixOf content then (content, false)
  else (H.cap_header ++ content, true)

/-- The date list parsed from a matched modification line:
`modif_line.split(" ")[2].split("-")`.  The index access `[2]` is total in
Python on every reachable input because a regex match always starts with
`Modifications on `; it is modelled with a default. -/
def modifDates (modif_line : List Char) : List (List Char) :=
  splitOnChar '-' ((splitOnChar ' ' modif_line).getD 2 [])

/-- Pure content transformation of `check_header_modified` (sostrades
variant): the three-way branch on the Airbus header, the modification-line
regex match, or neither.  On the regex branch the matched line is split on
spaces, the third token is the date field, which is split on dashes; if the
second date equals today nothing changes, otherwise the matched line is
replaced (everywhere, per `str.replace`) by the updated modification line
built from the first date. -/
def checkModifiedContent (H : Headers) (content : List Char) : List Char × Bool :=
  if H.airbus_header.isPrefixOf content then
    (pyReplace content H.airbus_header H.modified_header, true)
  else
    match reSearchModif content with
    | some modif_line =>
      if (modifDates modif_line)[1]? = some H.today then (content, false)
      else
        (pyReplace content modif_line (updatedModifLine H ((modifDates modif_line).headD [])),
         true)
    | none => (content, false)

/-- File-level `check_header_added` of the sostrades variant: opening a
missing file for reading raises `FileNotFoundError`; the file is rewritten
only when the content changes. -/
def check_header_added (H : Headers) (fs : FS) (p : String) : Except String (FS × Bool) :=
  match fs p with
  | none => Except.error "FileNotFoundError"
  | some content =>
    let r := checkAddedContent H content
    if r.2 then Except.ok (fsWrite fs p r.1, true) else Except.ok (fs, false)

/-- File-level `check_header_modified` of the sostrades variant. -/
def check_header_modified (H : Headers) (fs : FS) (p : String) : Except String (FS × Bool) :=
  match fs p with
  | none => Except.error "FileNotFoundError"
  | some content =>
    let r := checkModifiedContent H content
    if r.2 then Except.ok (fsWrite fs p r.1, true) else Except.ok (fs, false)

/-- Loop body of `update_headers` (sostrades variant): dispatch each file on
membership in the added / modified path lists, accumulating the Python
integer `files_were_changed` (bool values add as 0 or 1). -/
def update_go (H : Headers) (added modified : List String) :
    List String → FS → Nat → Except String (FS × Nat)
  | [], fs, acc => Except.ok (fs, acc)
  | f :: rest, fs, acc =>
    if added.contains f then
      match check_header_added H fs f with
      | Except.error e => Except.error e
      | Except.ok (fs1, b) => update_go H added modified rest fs1 (acc + (if b then 1 else 0))
    else if modified.contains f then
      match check_header_modified H fs f with
      | Except.error e => Except.error e
      | Except.ok (fs1, b) => update_go H added modified rest fs1 (acc + (if b then 1 else 0))
    else update_go H added modified rest fs acc

/-- `HeaderUpdater.update_headers` of the sostrades variant; the returned
number is `int(files_were_changed)`, the sum of the per-file booleans. -/
def update_headers (H : Headers) (added modified : List String) (fs : FS)
    (filenames : List String) : Except String (FS × Nat) :=
  update_go H added modified filenames fs 0

/-- Per-file outcome trace of the same loop: the boolean each listed file
contributes to the aggregate (false for skipped files). -/
def update_outcomes (H : Headers) (added modified : List String) :
    List String → FS → Except String (List Bool)
  | [], _ => Except.ok []
  | f :: rest, fs =>
    if added.contains f then
      match check_header_added H fs f with
      | Except.error e => Except.error e
      | Except.ok (fs1, b) => (update_outcomes H added modified rest fs1).map (b :: ·)
    else if modified.contains f then
      match check_header_modified H fs f with
      | Except.error e => Except.error e
      | Except.ok (fs1, b) => (update_outcomes H added modified rest fs1).map (b :: ·)
    else (update_outcomes H added modified rest fs).map (false :: ·)

/-- Number of `true` entries of a boolean list. -/
def countTrue : List Bool → Nat
  | [] => 0
  | b :: rest => (if b then 1 else 0) + countTrue rest

/-- Exit argument of `main` in the sostrades variant:
`exit(int(files_were_modified))`. -/
def sost_main_exit (H : Headers) (added modified : List String) (fs : FS)
    (filenames : List String) : Except String Nat :=
  (update_headers H added modified fs filenames).map (fun r => r.2)

/-- An entry of `repo.head.commit.diff(None)`: an opaque diff object whose
`a_path` field holds the path string. -/
structure DiffEntry where
  a_path : String

/-- Modelled from the spec: the header_updater_hook variant compares raw
diff-entry objects against filename strings (`file_name in added` with
`added` a list of diff objects); the spec states this comparison is always
false, so it is modelled as the constantly false test. -/
def pyStrEqDiffEntry (_s : String) (_d : DiffEntry) : Bool := false

/-- The hook variant's membership test `file_name in added`: any element of
the diff-entry list comparing equal to the filename string. -/
def hookMem (f : String) (l : List DiffEntry) : Bool :=
  l.any (pyStrEqDiffEntry f)

/-- `check_header_added` of the header_updater_hook variant.  The file is
opened with mode `w+`, which creates it if missing and truncates it to
empty, so the subsequent read always yields empty content; the Capgemini
header is then written at position 0. -/
def hook_check_header_added (H : Headers) (fs : FS) (p : String) :
    Except String (FS × Bool) :=
  let fs1 := fsWrite fs p []
  if H.cap_header.isPrefixOf ([] : List Char) then Except.ok (fs1, false)
  else Except.ok (fsWrite fs1 p (H.cap_header ++ ([] : List Char)), true)

/-- `check_header_modified` of the header_updater_hook variant: mode `w+`
truncates the file and the read yields empty content; the replace branch
would write to the already closed handle (a `ValueError` in Python), the
other branch reports no change while leaving the file truncated. -/
def hook_check_header_modified (H : Headers) (fs : FS) (p : String) :
    Except String (FS × Bool) :=
  let fs1 := fsWrite fs p []
  if H.airbus_header.isPrefixOf ([] : List Char) then
    Except.error "ValueError: write to closed file"
  else Except.ok (fs1, false)

/-- `update_headers` of the header_updater_hook variant.  The `return`
statement sits inside the for loop, so at most the first listed file is
processed; an empty list returns `None` (modelled as `none`).  The third
component records whether the added branch was executed. -/
def hook_update_headers (H : Headers) (added modified : List DiffEntry) (fs : FS) :
    List String → Except String (FS × Option Nat × Bool)
  | [] => Except.ok (fs, none, false)
  | f :: _ =>
    if hookMem f added then
      match hook_check_header_added H fs f with
      | Except.error e => Except.error e
      | Except.ok (fs1, b) => Except.ok (fs1, some (if b then 1 else 0), true)
    else if hookMem f modified then
      match hook_check_header_modified H fs f with
      | Except.error e => Except.error e
      | Except.ok (fs1, b) => Except.ok (fs1, some (if b then 1 else 0), false)
    else Except.ok (fs, some 0, false)

/-- Exit argument of `main` in the header_updater_hook variant:
`exit(int(not files_were_modified))`; `not None` and `not 0` are true. -/
def hook_main_exit (H : Headers) (added modified : List DiffEntry) (fs : FS)
    (filenames : List String) : Except String Nat :=
  (hook_update_headers H added modified fs filenames).map (fun r =>
    match r.2.1 with
    | none => 1
    | some n => if n = 0 then 1 else 0)

/-- Modelled from the spec: the license template body (the file
`apache_license.txt` of the package is not among the sources; the spec only
requires an immutable block of legal text, and every theorem below is
universally quantified over it).  This representative value is used by the
concrete witnesses and counterexamples. -/
def apacheText : List Char := strL "Licensed under the Apache License, Version 2.0"

/-- Concrete run date used by witnesses and counterexamples. -/
def wtoday : List Char := strL "2024/03/05"

/-- Concrete run year used by witnesses and counterexamples. -/
def wyear : List Char := strL "2024"

/-- Concrete sostrades-variant header set for witnesses and counterexamples. -/
def H0 : Headers := mkHeaders apacheText wtoday wyear

/-- Concrete hook-variant header set for witnesses and counterexamples. -/
def hookH0 : Headers := hookMkHeaders apacheText wtoday wyear

/-- The empty file system. -/
def fsEmpty : FS := fun _ => none

/-- A file system holding a single file. -/
def fsSingle (p : String) (c : List Char) : FS :=
  fun q => if q = p then some c else none

/-- Concrete file content for the already-modified-file scenario of the
spec: a modification line with a single older date. -/
def c1wLine : List Char := strL "Modifications on 2024/01/10 Copyright 2024 Capgemini"

/-- Concrete single-file system holding `c1wLine`. -/
def c1wFS : FS := fsSingle "f.py" c1wLine

/-- Concrete modification line embedded after an origin header. -/
def c1cexLine : List Char := strL "Modifications on 2020/01/01 Copyright 2020 Capgemini"

/-- Concrete content that both starts with the origin header and matches the
modification-line pattern. -/
def c1cexContent : List Char := H0.airbus_header ++ c1cexLine

/-- Concrete content whose modification line holds a single date equal to
the run date. -/
def c4input : List Char := strL "Modifications on 2024/03/05 Copyright 2024 Capgemini\n"

/-- The modification line matched inside `c4input`. -/
def c4line : List Char := strL "Modifications on 2024/03/05 Copyright 2024 Capgemini"

/-- What the code rewrites `c4input` into on the same day. -/
def c4output : List Char := strL "Modifications on 2024/03/05-2024/03/05 Copyright 2024 Capgemini\n"

/-- Concrete content starting with the canonical current header. -/
def c3wContent : List Char := H0.cap_header ++ strL "x = 1\n"

/-- Concrete content starting with the hook variant's canonical header. -/
def c3hookContent : List Char := hookH0.cap_header ++ strL "x = 1\n"

/-- Concrete two-file system used for the aggregate-count counterexample. -/
def fsAB : FS :=
  fun q => if q = "a" then some (strL "x") else if q = "b" then some (strL "y") else none

/-- Concrete two-file system used for the untracked-file witness. -/
def c8fs : FS :=
  fun q => if q = "a" then some (strL "x") else if q = "c" then some (strL "z") else none

/-- The file system `c8fs` after the added-file rewrite of file `a`. -/
def c8fs2 : FS := fsWrite c8fs "a" (H0.cap_header ++ strL "x")

/-- Access rights of the working tree: whether a path can be opened for
reading and whether it can be opened for writing. -/
structure Perms where
  readable : String → Bool
  writable : String → Bool

/-- Fully permissive access rights; under them the permission-aware checks
coincide with the plain ones. -/
def permsAll : Perms :=
  { readable := fun _ => true, writable := fun _ => true }

/-- Model of `file_path.open()` in read mode: `FileNotFoundError` on a
missing path, `PermissionError` on an existing but unreadable one,
otherwise the content. -/
def pyOpenRead (perm : Perms) (fs : FS) (p : String) : Except String (List Char) :=
  match fs p with
  | none => Except.error "FileNotFoundError"
  | some content =>
    if perm.readable p then Except.ok content else Except.error "PermissionError"

/-- Model of `file_path.open("w")` followed by writing `c`: `PermissionError`
on an unwritable path, otherwise the file is overwritten. -/
def pyOpenWrite (perm : Perms) (fs : FS) (p : String) (c : List Char) : Except String FS :=
  if perm.writable p then Except.ok (fsWrite fs p c) else Except.error "PermissionError"

/-- Permission-aware `check_header_added` of the sostrades variant: the file
is opened for reading first, and opened for writing only when the content
has to change, exactly as in the source. -/
def checkAddedPerm (H : Headers) (perm : Perms) (fs : FS) (p : String) :
    Except String (FS × Bool) :=
  match pyOpenRead perm fs p with
  | Except.error e => Except.error e
  | Except.ok content =>
    let r := checkAddedContent H content
    if r.2 then
      match pyOpenWrite perm fs p r.1 with
      | Except.error e => Except.error e
      | Except.ok fs1 => Except.ok (fs1, true)
    else Except.ok (fs, false)

/-- Permission-aware `check_header_modified` of the sostrades variant. -/
def checkModifiedPerm (H : Headers) (perm : Perms) (fs : FS) (p : String) :
    Except String (FS × Bool) :=
  match pyOpenRead perm fs p with
  | Except.error e => Except.error e
  | Except.ok content =>
    let r := checkModifiedContent H content
    if r.2 then
      match pyOpenWrite perm fs p r.1 with
      | Except.error e => Except.error e
      | Except.ok fs1 => Except.ok (fs1, true)
    else Except.ok (fs, false)

/-- Permission-aware update loop of the sostrades variant; per-file errors
are not caught and abort the loop. -/
def updateGoPerm (H : Headers) (perm : Perms) (added modified : List String) :
    List String → FS → Nat → Except String (FS × Nat)
  | [], fs, acc => Except.ok (fs, acc)
  | f :: rest, fs, acc =>
    if added.contains f then
      match checkAddedPerm H perm fs f with
      | Except.error e => Except.error e
      | Except.ok (fs1, b) =>
        updateGoPerm H perm added modified rest fs1 (acc + (if b then 1 else 0))
    else if modified.contains f then
      match checkModifiedPerm H perm fs f with
      | Except.error e => Except.error e
      | Except.ok (fs1, b) =>
        updateGoPerm H perm added modified rest fs1 (acc + (if b then 1 else 0))
    else updateGoPerm H perm added modified rest fs acc

/-- Permission-aware `update_headers` of the sostrades variant. -/
def updateHeadersPerm (H : Headers) (perm : Perms) (added modified : List String)
    (fs : FS) (filenames : List String) : Except String (FS × Nat) :=
  updateGoPerm H perm added modified filenames fs 0

/-- Concrete access rights with one unreadable path and one unwritable
path. -/
def c9perm : Perms :=
  { readable := fun q => !(q == "r.py"), writable := fun q => !(q == "w.py") }

/-- Concrete file system holding an unreadable file and an unwritable
headerless file; the path `a.py` is missing. -/
def c9fs : FS :=
  fun q =>
    if q = "r.py" then some (strL "x = 1\n")
    else if q = "w.py" then some (strL "x = 1\n")
    else none

/-- A list is a Boolean prefix of itself followed by anything. -/
theorem lem_isPrefixOf_append (l r : List Char) : l.isPrefixOf (l ++ r) = true := by
  induction l with
  | nil => cases r <;> rfl
  | cons c cs ih => simp [List.isPrefixOf, ih]

/-- Dropping the length of the left part of an append yields the right part. -/
theorem lem_drop_len_append (l r : List Char) : (l ++ r).drop l.length = r := by
  induction l with
  | nil => rfl
  | cons c cs ih => exact ih

/-- Replacement is the identity on a list in which the pattern does not occur. -/
theorem lem_pyReplaceFuel_id (old new : List Char) :
    ∀ (fuel : Nat) (s : List Char), occursIn old s = false → pyReplaceFuel old new fuel s = s := by
  intro fuel
  induction fuel with
  | zero => intro s _; cases s <;> rfl
  | succ k ih =>
    intro s hs
    cases s with
    | nil => rfl
    | cons c rest =>
      have hh : old.isPrefixOf (c :: rest) = false ∧ occursIn old rest = false := by
        simpa [occursIn] using hs
      simp [pyReplaceFuel, hh.1, ih rest hh.2]

/-- Replacing a non-empty pattern in a list that starts with it, when the
pattern does not occur in the remainder, substitutes exactly the head. -/
theorem lem_pyReplace_head (old new rest : List Char) (hne : old ≠ [])
    (ho : occursIn old rest = false) : pyReplace (old ++ rest) old new = new ++ rest := by
  obtain ⟨o, os, rfl⟩ : ∃ o os, old = o :: os := by
    cases old with
    | nil => exact absurd rfl hne
    | cons o os => exact ⟨o, os, rfl⟩
  show pyReplace (o :: (os ++ rest)) (o :: os) new = new ++ rest
  unfold pyReplace
  simp only [List.isEmpty, if_false, Bool.false_eq_true]
  show pyReplaceFuel (o :: os) new ((os ++ rest).length + 1) (o :: (os ++ rest)) = new ++ rest
  have hcond : (o :: os).isPrefixOf (o :: (os ++ rest)) = true := lem_isPrefixOf_append _ _
  simp only [pyReplaceFuel, hcond, if_true, List.length_cons, List.drop_succ_cons]
  rw [lem_drop_len_append os rest, lem_pyReplaceFuel_id _ _ _ _ ho]

/-- The Airbus header built by the sostrades constructor is non-empty. -/
theorem lem_airbus_ne_nil (a t y : List Char) : (mkHeaders a t y).airbus_header ≠ [] := by
  simp [mkHeaders, headerWrap, tripleQuote]

/-- A Boolean list has a positive count of `true` exactly when it holds one. -/
theorem lem_countTrue_pos (bs : List Bool) : 0 < countTrue bs ↔ true ∈ bs := by
  induction bs with
  | nil => simp [countTrue]
  | cons b rest ih => cases b <;> simp [countTrue, ih]

/-- A successful `check_header_added` call leaves every other file alone. -/
theorem lem_check_added_frame (H : Headers) (fs : FS) (f : String) (fs1 : FS) (b : Bool)
    (h : check_header_added H fs f = Except.ok (fs1, b)) :
    ∀ q, q ≠ f → fs1 q = fs q := by
  intro q hq
  unfold check_header_added at h
  cases hf : fs f with
  | none => rw [hf] at h; cases h
  | some content =>
    rw [hf] at h
    by_cases hc : (checkAddedContent H content).2 = true
    · simp only [hc, if_true, Except.ok.injEq, Prod.mk.injEq] at h
      rw [← h.1]
      simp [fsWrite, hq]
    · simp only [Bool.not_eq_true] at hc
      simp only [hc, Bool.false_eq_true, if_false, Except.ok.injEq, Prod.mk.injEq] at h
      rw [← h.1]

/-- A successful `check_header_modified` call leaves every other file alone. -/
theorem lem_check_modified_frame (H : Headers) (fs : FS) (f : String) (fs1 : FS) (b : Bool)
    (h : check_header_modified H fs f = Except.ok (fs1, b)) :
    ∀ q, q ≠ f → fs1 q = fs q := by
  intro q hq
  unfold check_header_modified at h
  cases hf : fs f with
  | none => rw [hf] at h; cases h
  | some content =>
    rw [hf] at h
    by_cases hc : (checkModifiedContent H content).2 = true
    · simp only [hc, if_true, Except.ok.injEq, Prod.mk.injEq] at h
      rw [← h.1]
      simp [fsWrite, hq]
    · simp only [Bool.not_eq_true] at hc
      simp only [hc, Bool.false_eq_true, if_false, Except.ok.injEq, Prod.mk.injEq] at h
      rw [← h.1]

/-- The aggregate count returned by the update loop is the starting
accumulator plus the number of files whose check reported a change. -/
theorem lem_update_go_outcomes (H : Headers) (added modified : List String) :
    ∀ (files : List String) (fs : FS) (acc : Nat) (fs2 : FS) (n : Nat),
      update_go H added modified files fs acc = Except.ok (fs2, n) →
      ∃ bs, update_outcomes H added modified files fs = Except.ok bs ∧ n = acc + countTrue bs := by
  intro files
  induction files with
  | nil =>
    intro fs acc fs2 n h
    refine ⟨[], rfl, ?_⟩
    simp only [update_go, Except.ok.injEq, Prod.mk.injEq] at h
    simp [countTrue, ← h.2]
  | cons f rest ih =>
    intro fs acc fs2 n h
    unfold update_go at h
    unfold update_outcomes
    by_cases ha : added.contains f = true
    · simp only [ha, if_true] at h ⊢
      cases hch : check_header_added H fs f with
      | error e => rw [hch] at h; cases h
      | ok r =>
        obtain ⟨fs1, b⟩ := r
        rw [hch] at h
        obtain ⟨bs, hbs, hn⟩ := ih fs1 (acc + if b then 1 else 0) fs2 n h
        refine ⟨b :: bs, by simp [hbs, Except.map], ?_⟩
        cases b <;> simp [countTrue] at hn ⊢ <;> omega
    · simp only [Bool.not_eq_true] at ha
      simp only [ha, Bool.false_eq_true, if_false] at h ⊢
      by_cases hm : modified.contains f = true
      · simp only [hm, if_true] at h ⊢
        cases hch : check_header_modified H fs f with
        | error e => rw [hch] at h; cases h
        | ok r =>
          obtain ⟨fs1, b⟩ := r
          rw [hch] at h
          obtain ⟨bs, hbs, hn⟩ := ih fs1 (acc + if b then 1 else 0) fs2 n h
          refine ⟨b :: bs, by simp [hbs, Except.map], ?_⟩
          cases b <;> simp [countTrue] at hn ⊢ <;> omega
      · simp only [Bool.not_eq_true] at hm
        simp only [hm, Bool.false_eq_true, if_false] at h ⊢
        obtain ⟨bs, hbs, hn⟩ := ih fs acc fs2 n h
        refine ⟨false :: bs, by simp [hbs, Except.map], ?_⟩
        simp [countTrue, hn]

/-- The hook variant's membership test between a filename string and a list
of diff-entry objects is false for every list. -/
theorem lem_hookMem_false (f : String) (l : List DiffEntry) : hookMem f l = false := by
  induction l with
  | nil => rfl
  | cons d rest ih =>
    simp only [hookMem, List.any_cons, pyStrEqDiffEntry, Bool.false_or]
    simpa [hookMem] using ih

/-- C3 (amended): in the sostrades_pre_commit variant, `check_header_added`
reads the full content; when it already starts with the canonical current
header it reports false and touches nothing, otherwise it writes the
canonical header prepended to the existing content and reports true. -/
theorem claim_C3_added_rule (a t y : List Char) (fs : FS) (p : String) (content : List Char)
    (hfs : fs p = some content) :
    ((mkHeaders a t y).cap_header.isPrefixOf content = true →
      check_header_added (mkHeaders a t y) fs p = Except.ok (fs, false)) ∧
    ((mkHeaders a t y).cap_header.isPrefixOf content = false →
      check_header_added (mkHeaders a t y) fs p =
        Except.ok (fsWrite fs p ((mkHeaders a t y).cap_header ++ content), true)) := by
  constructor
  · intro hp
    simp [check_header_added, hfs, checkAddedContent, hp]
  · intro hp
    simp [check_header_added, hfs, checkAddedContent, hp]

/-- C3 witness: a concrete file starting with the canonical current header
is reported unchanged and the file system is untouched. -/
theorem claim_C3_witness :
    H0.cap_header.isPrefixOf c3wContent = true ∧
    check_header_added H0 (fsSingle "f.py" c3wContent) "f.py" =
      Except.ok (fsSingle "f.py" c3wContent, false) :=
  ⟨by decide,
   (claim_C3_added_rule apacheText wtoday wyear (fsSingle "f.py" c3wContent) "f.py" c3wContent
      rfl).1 (by decide)⟩

/-- C3 counterexample: the header_updater_hook variant of
`check_header_added`, also cited by the claim, destroys a file that already
starts with the canonical header (mode `w+` truncates it before reading)
and reports it as changed. -/
theorem claim_C3_cex_hook :
    hookH0.cap_header.isPrefixOf c3hookContent = true ∧
    (hook_check_header_added hookH0 (fsSingle "g.py" c3hookContent) "g.py").map
        (fun r => (r.1 "g.py", r.2)) =
      Except.ok (some hookH0.cap_header, true) ∧
    hookH0.cap_header ≠ c3hookContent := by
  refine ⟨by decide, rfl, by decide⟩

/-- C5 (amended): in the sostrades_pre_commit variant, applying
`check_header_added` twice to the same file yields the file system of the
first application and the second application reports unchanged. -/
theorem claim_C5_added_idempotent (a t y : List Char) (fs : FS) (p : String) (fs1 : FS) (b : Bool)
    (h : check_header_added (mkHeaders a t y) fs p = Except.ok (fs1, b)) :
    check_header_added (mkHeaders a t y) fs1 p = Except.ok (fs1, false) := by
  unfold check_header_added at h ⊢
  cases hf : fs p with
  | none => rw [hf] at h; cases h
  | some content =>
    rw [hf] at h
    by_cases hc : (mkHeaders a t y).cap_header.isPrefixOf content = true
    · simp [checkAddedContent, hc] at h
      obtain ⟨h1, h2⟩ := h
      subst h1
      rw [hf]
      simp [checkAddedContent, hc]
    · simp only [Bool.not_eq_true] at hc
      simp [checkAddedContent, hc] at h
      obtain ⟨h1, h2⟩ := h
      subst h1
      simp [fsWrite, checkAddedContent, lem_isPrefixOf_append]

/-- C5 witness: a concrete headerless file is rewritten once; the second
application reports unchanged on the resulting file system. -/
theorem claim_C5_witness :
    check_header_added H0
        (fsWrite (fsSingle "f.py" (strL "x = 1\n")) "f.py" (H0.cap_header ++ strL "x = 1\n"))
        "f.py" =
      Except.ok
        (fsWrite (fsSingle "f.py" (strL "x = 1\n")) "f.py" (H0.cap_header ++ strL "x = 1\n"),
         false) :=
  claim_C5_added_idempotent apacheText wtoday wyear (fsSingle "f.py" (strL "x = 1\n")) "f.py"
    (fsWrite (fsSingle "f.py" (strL "x = 1\n")) "f.py" (H0.cap_header ++ strL "x = 1\n")) true rfl

/-- C5 counterexample: the header_updater_hook variant of
`check_header_added`, also cited by the claim, reports changed again on a
second application to the same file. -/
theorem claim_C5_cex_hook :
    Except.bind (hook_check_header_added hookH0 (fsSingle "f.py" (strL "x = 1\n")) "f.py")
        (fun r => (hook_check_header_added hookH0 r.1 "f.py").map (fun r2 => r2.2)) =
      Except.ok true := rfl

/-- C2 (amended): in the sostrades_pre_commit variant, a modified file whose
content starts with the origin header has every occurrence of the origin
header replaced by the modified-header variant and is reported changed;
when the origin header does not reoccur in the remainder, the output is
exactly the modified header followed by the unchanged remainder. -/
theorem claim_C2_origin_replaced (a t y rest : List Char) (fs : FS) (p : String)
    (hocc : occursIn (mkHeaders a t y).airbus_header rest = false)
    (hfs : fs p = some ((mkHeaders a t y).airbus_header ++ rest)) :
    check_header_modified (mkHeaders a t y) fs p =
      Except.ok (fsWrite fs p ((mkHeaders a t y).modified_header ++ rest), true) := by
  have hpre := lem_isPrefixOf_append (mkHeaders a t y).airbus_header rest
  have hrep := lem_pyReplace_head (mkHeaders a t y).airbus_header
    (mkHeaders a t y).modified_header rest (lem_airbus_ne_nil a t y) hocc
  simp [check_header_modified, hfs, checkModifiedContent, hpre, hrep]

/-- C2 witness: the legacy-file-first-touched scenario at a concrete file:
the origin header becomes the modified header and the body is unchanged. -/
theorem claim_C2_witness :
    occursIn H0.airbus_header (strL "x = 1\n") = false ∧
    check_header_modified H0 (fsSingle "f.py" (H0.airbus_header ++ strL "x = 1\n")) "f.py" =
      Except.ok
        (fsWrite (fsSingle "f.py" (H0.airbus_header ++ strL "x = 1\n")) "f.py"
          (H0.modified_header ++ strL "x = 1\n"), true) :=
  ⟨by decide,
   claim_C2_origin_replaced apacheText wtoday wyear (strL "x = 1\n")
     (fsSingle "f.py" (H0.airbus_header ++ strL "x = 1\n")) "f.py" (by decide) rfl⟩

/-- C2 counterexample: on content consisting of the origin header twice,
`str.replace` rewrites both copies, so the bytes after the leading origin
header are not left unchanged as the claim states. -/
theorem claim_C2_cex_double_origin :
    checkModifiedContent H0 (H0.airbus_header ++ H0.airbus_header) =
      (H0.modified_header ++ H0.modified_header, true) ∧
    checkModifiedContent H0 (H0.airbus_header ++ H0.airbus_header) ≠
      (H0.modified_header ++ H0.airbus_header, true) := by
  refine ⟨by decide, by decide⟩

/-- C1 (amended): in the sostrades_pre_commit variant, for a modified file
whose content does not start with the origin header and matches the
modification-line pattern, the matched line's third space-separated token
is split on dashes; if the second date equals today the call reports false
and writes nothing, otherwise every occurrence of the matched line is
replaced by `Modifications on <first>-<today> Copyright <year> Capgemini`
and the call reports true. -/
theorem claim_C1_modif_line_update (a t y : List Char) (fs : FS) (p : String)
    (content m : List Char)
    (hfs : fs p = some content)
    (hpre : (mkHeaders a t y).airbus_header.isPrefixOf content = false)
    (hsearch : reSearchModif content = some m) :
    ((modifDates m)[1]? = some t →
      check_header_modified (mkHeaders a t y) fs p = Except.ok (fs, false)) ∧
    ((modifDates m)[1]? ≠ some t →
      check_header_modified (mkHeaders a t y) fs p =
        Except.ok (fsWrite fs p (pyReplace content m
          (updatedModifLine (mkHeaders a t y) ((modifDates m).headD []))), true)) := by
  have ht : (mkHeaders a t y).today = t := rfl
  constructor
  · intro hd
    simp [check_header_modified, hfs, checkModifiedContent, hpre, hsearch, ht, hd]
  · intro hd
    simp [check_header_modified, hfs, checkModifiedContent, hpre, hsearch, ht, hd]

/-- C1 witness: the spec's already-modified-file scenario: a single older
date 2024/01/10 on run date 2024/03/05 becomes the range
2024/01/10-2024/03/05 with the current year's copyright, reported changed. -/
theorem claim_C1_witness :
    reSearchModif c1wLine = some c1wLine ∧
    H0.airbus_header.isPrefixOf c1wLine = false ∧
    check_header_modified H0 c1wFS "f.py" =
      Except.ok (fsWrite c1wFS "f.py" (pyReplace c1wLine c1wLine
        (updatedModifLine H0 ((modifDates c1wLine).headD []))), true) ∧
    pyReplace c1wLine c1wLine (updatedModifLine H0 ((modifDates c1wLine).headD [])) =
      strL "Modifications on 2024/01/10-2024/03/05 Copyright 2024 Capgemini" :=
  ⟨by decide, by decide,
   (claim_C1_modif_line_update apacheText wtoday wyear c1wFS "f.py" c1wLine c1wLine rfl
      (by decide) (by decide)).2 (by decide),
   by decide⟩

/-- C1 counterexample: content that starts with the origin header and also
matches the modification-line pattern is handled by the header-replacement
branch, not by the date-field update the claim asserts for every matching
file. -/
theorem claim_C1_cex_origin_prefixed :
    reSearchModif c1cexContent = some c1cexLine ∧
    checkModifiedContent H0 c1cexContent = (H0.modified_header ++ c1cexLine, true) ∧
    checkModifiedContent H0 c1cexContent ≠
      (pyReplace c1cexContent c1cexLine (updatedModifLine H0 (strL "2020/01/01")), true) := by
  refine ⟨by decide, by decide, by decide⟩

/-- C4: evaluation of the code at the failing input: a file whose
modification line holds the single date 2024/03/05, processed on
2024/03/05, is rewritten to the range 2024/03/05-2024/03/05 and reported
changed, although its latest date already equals today. -/
theorem claim_C4_same_day_not_idempotent :
    reSearchModif c4input = some c4line ∧
    modifDates c4line = [H0.today] ∧
    checkModifiedContent H0 c4input = (c4output, true) ∧
    c4output ≠ c4input ∧
    check_header_modified H0 (fsSingle "f.py" c4input) "f.py" =
      Except.ok (fsWrite (fsSingle "f.py" c4input) "f.py" c4output, true) := by
  refine ⟨by decide, by decide, by decide, by decide, rfl⟩

/-- Removing a path that is in neither classification list from the input
does not change the result of the update loop. -/
theorem lem_update_go_skip (H : Headers) (added modified : List String) (p : String)
    (ha : added.contains p = false) (hm : modified.contains p = false) :
    ∀ (files : List String) (fs : FS) (acc : Nat),
      update_go H added modified files fs acc =
        update_go H added modified (files.filter (fun q => !(q == p))) fs acc := by
  intro files
  induction files with
  | nil => intro fs acc; rfl
  | cons f rest ih =>
    intro fs acc
    by_cases hfp : f = p
    · subst hfp
      simp only [List.filter_cons, beq_self_eq_true, Bool.not_true, Bool.false_eq_true, if_false]
      simp only [update_go, ha, hm, Bool.false_eq_true, if_false]
      exact ih fs acc
    · have hb : (f == p) = false := by simp [hfp]
      simp only [List.filter_cons, hb, Bool.not_false, if_true]
      by_cases haf : added.contains f = true
      · simp only [update_go, haf, if_true]
        cases hch : check_header_added H fs f with
        | error e => rfl
        | ok r =>
          obtain ⟨fs1, b⟩ := r
          exact ih fs1 _
      · simp only [Bool.not_eq_true] at haf
        by_cases hmf : modified.contains f = true
        · simp only [update_go, haf, hmf, Bool.false_eq_true, if_false, if_true]
          cases hch : check_header_modified H fs f with
          | error e => rfl
          | ok r =>
            obtain ⟨fs1, b⟩ := r
            exact ih fs1 _
        · simp only [Bool.not_eq_true] at hmf
          simp only [update_go, haf, hmf, Bool.false_eq_true, if_false]
          exact ih fs acc

/-- A successful update loop leaves every path outside both classification
lists untouched. -/
theorem lem_update_go_frame (H : Headers) (added modified : List String) (p : String)
    (ha : added.contains p = false) (hm : modified.contains p = false) :
    ∀ (files : List String) (fs : FS) (acc : Nat) (fs2 : FS) (n : Nat),
      update_go H added modified files fs acc = Except.ok (fs2, n) → fs2 p = fs p := by
  intro files
  induction files with
  | nil =>
    intro fs acc fs2 n h
    simp only [update_go, Except.ok.injEq, Prod.mk.injEq] at h
    rw [← h.1]
  | cons f rest ih =>
    intro fs acc fs2 n h
    unfold update_go at h
    by_cases haf : added.contains f = true
    · simp only [haf, if_true] at h
      cases hch : check_header_added H fs f with
      | error e => rw [hch] at h; cases h
      | ok r =>
        obtain ⟨fs1, b⟩ := r
        rw [hch] at h
        have hne : p ≠ f := by
          intro he
          rw [he] at ha
          rw [ha] at haf
          cases haf
        rw [ih fs1 _ fs2 n h, lem_check_added_frame H fs f fs1 b hch p hne]
    · simp only [Bool.not_eq_true] at haf
      simp only [haf, Bool.false_eq_true, if_false] at h
      by_cases hmf : modified.contains f = true
      · simp only [hmf, if_true] at h
        cases hch : check_header_modified H fs f with
        | error e => rw [hch] at h; cases h
        | ok r =>
          obtain ⟨fs1, b⟩ := r
          rw [hch] at h
          have hne : p ≠ f := by
            intro he
            rw [he] at hm
            rw [hm] at hmf
            cases hmf
          rw [ih fs1 _ fs2 n h, lem_check_modified_frame H fs f fs1 b hch p hne]
      · simp only [Bool.not_eq_true] at hmf
        simp only [hmf, Bool.false_eq_true, if_false] at h
        exact ih fs acc fs2 n h

/-- C6 (amended): `update_headers` of the sostrades_pre_commit variant
returns the number of files whose per-file check reported a change, and
that number is positive exactly when some listed file changed. -/
theorem claim_C6_update_count (a t y : List Char) (added modified : List String) (fs : FS)
    (files : List String) (fs2 : FS) (n : Nat)
    (h : update_headers (mkHeaders a t y) added modified fs files = Except.ok (fs2, n)) :
    (∀ bs, update_outcomes (mkHeaders a t y) added modified files fs = Except.ok bs →
      n = countTrue bs) ∧
    (0 < n ↔ ∃ bs, update_outcomes (mkHeaders a t y) added modified files fs = Except.ok bs ∧
      true ∈ bs) := by
  obtain ⟨bs0, hbs0, hn0⟩ :=
    lem_update_go_outcomes (mkHeaders a t y) added modified files fs 0 fs2 n h
  constructor
  · intro bs hbs
    rw [hbs0] at hbs
    have hb : bs0 = bs := by
      injection hbs
    subst hb
    simpa using hn0
  · constructor
    · intro hpos
      refine ⟨bs0, hbs0, (lem_countTrue_pos bs0).1 ?_⟩
      omega
    · rintro ⟨bs, hbs, hmem⟩
      rw [hbs0] at hbs
      have hb : bs0 = bs := by
        injection hbs
      subst hb
      have := (lem_countTrue_pos bs0).2 hmem
      omega

/-- C6 witness: a single added file without a header is rewritten; the
returned count 1 is positive and a changed outcome exists. -/
theorem claim_C6_witness :
    0 < 1 ↔ ∃ bs, update_outcomes H0 ["a"] [] ["a"] (fsSingle "a" (strL "x")) = Except.ok bs ∧
      true ∈ bs :=
  (claim_C6_update_count apacheText wtoday wyear ["a"] [] (fsSingle "a" (strL "x")) ["a"]
    (fsWrite (fsSingle "a" (strL "x")) "a" (H0.cap_header ++ strL "x")) 1 rfl).2

/-- C6 counterexample: with two added headerless files the call returns 2,
not 1, although at least one file's content was changed. -/
theorem claim_C6_cex_returns_two :
    (update_headers H0 ["a", "b"] [] fsAB ["a", "b"]).map (fun r => r.2) = Except.ok 2 ∧
    (update_headers H0 ["a", "b"] [] fsAB ["a", "b"]).map (fun r => r.1 "a") =
      Except.ok (some (H0.cap_header ++ strL "x")) ∧
    fsAB "a" = some (strL "x") ∧
    (2 : Nat) ≠ 1 := by
  refine ⟨rfl, rfl, rfl, by decide⟩

/-- C7 (amended): in the sostrades_pre_commit variant, the exit argument of
`main` is the aggregate count, and it is 0 exactly when no listed file
reported a change. -/
theorem claim_C7_exit_code (a t y : List Char) (added modified : List String) (fs : FS)
    (files : List String) (fs2 : FS) (n : Nat)
    (h : update_headers (mkHeaders a t y) added modified fs files = Except.ok (fs2, n)) :
    sost_main_exit (mkHeaders a t y) added modified fs files = Except.ok n ∧
    (n = 0 ↔ ∃ bs, update_outcomes (mkHeaders a t y) added modified files fs = Except.ok bs ∧
      true ∉ bs) := by
  obtain ⟨bs0, hbs0, hn0⟩ :=
    lem_update_go_outcomes (mkHeaders a t y) added modified files fs 0 fs2 n h
  constructor
  · simp [sost_main_exit, h, Except.map]
  · constructor
    · intro h0
      refine ⟨bs0, hbs0, fun hmem => ?_⟩
      have := (lem_countTrue_pos bs0).2 hmem
      omega
    · rintro ⟨bs, hbs, hmem⟩
      rw [hbs0] at hbs
      have hb : bs0 = bs := by
        injection hbs
      subst hb
      rcases Nat.eq_zero_or_pos (countTrue bs0) with hz | hp
      · omega
      · exact absurd ((lem_countTrue_pos bs0).1 hp) hmem

/-- C7 witness: a run in which no file is classified changes nothing and
the exit argument is 0. -/
theorem claim_C7_witness :
    sost_main_exit H0 [] [] (fsSingle "a" (strL "x")) ["a"] = Except.ok 0 ∧
    (0 = 0 ↔ ∃ bs, update_outcomes H0 [] [] ["a"] (fsSingle "a" (strL "x")) = Except.ok bs ∧
      true ∉ bs) :=
  claim_C7_exit_code apacheText wtoday wyear [] [] (fsSingle "a" (strL "x")) ["a"]
    (fsSingle "a" (strL "x")) 0 rfl

/-- C7 counterexample: the header_updater_hook `main`, also cited by the
claim, exits with 1 on a run that changes no file. -/
theorem claim_C7_cex_hook_inverted :
    hook_update_headers hookH0 [] [] (fsSingle "a" (strL "x")) ["a"] =
      Except.ok (fsSingle "a" (strL "x"), some 0, false) ∧
    hook_main_exit hookH0 [] [] (fsSingle "a" (strL "x")) ["a"] = Except.ok 1 ∧
    (1 : Nat) ≠ 0 := by
  refine ⟨rfl, rfl, by decide⟩

/-- C8: a path in neither the added nor the modified list is skipped: the
run is identical to the run on the input list with that path filtered out,
and a successful run leaves that file untouched. -/
theorem claim_C8_untracked_noop (a t y : List Char) (added modified : List String) (fs : FS)
    (files : List String) (p : String)
    (ha : added.contains p = false) (hm : modified.contains p = false) :
    update_headers (mkHeaders a t y) added modified fs files =
      update_headers (mkHeaders a t y) added modified fs (files.filter (fun q => !(q == p))) ∧
    ∀ fs2 n, update_headers (mkHeaders a t y) added modified fs files = Except.ok (fs2, n) →
      fs2 p = fs p :=
  ⟨lem_update_go_skip (mkHeaders a t y) added modified p ha hm files fs 0,
   fun fs2 n h => lem_update_go_frame (mkHeaders a t y) added modified p ha hm files fs 0 fs2 n h⟩

/-- C8 witness: a concrete run with an untracked file `c`: the run equals
the run without `c` and the content of `c` is untouched. -/
theorem claim_C8_witness :
    update_headers H0 ["a"] [] c8fs ["a", "c"] =
      update_headers H0 ["a"] [] c8fs (["a", "c"].filter (fun q => !(q == "c"))) ∧
    c8fs2 "c" = c8fs "c" :=
  ⟨(claim_C8_untracked_noop apacheText wtoday wyear ["a"] [] c8fs ["a", "c"] "c"
      (by decide) (by decide)).1,
   (claim_C8_untracked_noop apacheText wtoday wyear ["a"] [] c8fs ["a", "c"] "c"
      (by decide) (by decide)).2 c8fs2 1 rfl⟩

/-- Under fully permissive access rights the permission-aware added check is
the plain one. -/
theorem lem_checkAddedPerm_all (H : Headers) (fs : FS) (p : String) :
    checkAddedPerm H permsAll fs p = check_header_added H fs p := by
  unfold checkAddedPerm check_header_added pyOpenRead pyOpenWrite permsAll
  cases hf : fs p with
  | none => rfl
  | some content =>
    by_cases h : (checkAddedContent H content).2 = true <;> simp [h]

/-- Under fully permissive access rights the permission-aware modified check
is the plain one. -/
theorem lem_checkModifiedPerm_all (H : Headers) (fs : FS) (p : String) :
    checkModifiedPerm H permsAll fs p = check_header_modified H fs p := by
  unfold checkModifiedPerm check_header_modified pyOpenRead pyOpenWrite permsAll
  cases hf : fs p with
  | none => rfl
  | some content =>
    by_cases h : (checkModifiedContent H content).2 = true <;> simp [h]

/-- C9 (amended): in the sostrades_pre_commit variant, a listed path that is
missing, or that exists but cannot be opened (unreadable; or unwritable
when the check has to rewrite it), makes the per-file check fail with the
corresponding uncaught error, and a per-file error aborts `update_headers`
with that error when the file is dispatched: such a file is never reported
as successfully handled, skipped, or created. -/
theorem claim_C9_unopenable_error (a t y : List Char) (perm : Perms) (fs : FS) (p : String) :
    (fs p = none →
      checkAddedPerm (mkHeaders a t y) perm fs p = Except.error "FileNotFoundError" ∧
      checkModifiedPerm (mkHeaders a t y) perm fs p = Except.error "FileNotFoundError") ∧
    (perm.readable p = false → (∃ c, fs p = some c) →
      checkAddedPerm (mkHeaders a t y) perm fs p = Except.error "PermissionError" ∧
      checkModifiedPerm (mkHeaders a t y) perm fs p = Except.error "PermissionError") ∧
    (∀ content, fs p = some content → perm.readable p = true → perm.writable p = false →
      ((checkAddedContent (mkHeaders a t y) content).2 = true →
        checkAddedPerm (mkHeaders a t y) perm fs p = Except.error "PermissionError") ∧
      ((checkModifiedContent (mkHeaders a t y) content).2 = true →
        checkModifiedPerm (mkHeaders a t y) perm fs p = Except.error "PermissionError")) ∧
    (∀ e, checkAddedPerm (mkHeaders a t y) perm fs p = Except.error e →
      ∀ (added modified rest : List String), added.contains p = true →
        updateHeadersPerm (mkHeaders a t y) perm added modified fs (p :: rest) =
          Except.error e) ∧
    (∀ e, checkModifiedPerm (mkHeaders a t y) perm fs p = Except.error e →
      ∀ (added modified rest : List String), added.contains p = false →
        modified.contains p = true →
        updateHeadersPerm (mkHeaders a t y) perm added modified fs (p :: rest) =
          Except.error e) := by
  refine ⟨?_, ?_, ?_, ?_, ?_⟩
  · intro hfs
    constructor <;> simp [checkAddedPerm, checkModifiedPerm, pyOpenRead, hfs]
  · rintro hr ⟨c, hc⟩
    constructor <;> simp [checkAddedPerm, checkModifiedPerm, pyOpenRead, hc, hr]
  · intro content hc hr hw
    constructor
    · intro hch
      simp [checkAddedPerm, pyOpenRead, hc, hr, hch, pyOpenWrite, hw]
    · intro hch
      simp [checkModifiedPerm, pyOpenRead, hc, hr, hch, pyOpenWrite, hw]
  · intro e he added modified rest hca
    unfold updateHeadersPerm updateGoPerm
    rw [hca]
    simp [he]
  · intro e he added modified rest hca hcm
    unfold updateHeadersPerm updateGoPerm
    rw [hca, hcm]
    simp [he]

/-- C9 witness: a missing file raises `FileNotFoundError`, an unreadable
file raises `PermissionError`, an unwritable headerless file raises
`PermissionError` when the rewrite is attempted, and the first error aborts
the whole run. -/
theorem claim_C9_witness :
    checkAddedPerm H0 c9perm c9fs "a.py" = Except.error "FileNotFoundError" ∧
    checkModifiedPerm H0 c9perm c9fs "r.py" = Except.error "PermissionError" ∧
    checkAddedPerm H0 c9perm c9fs "w.py" = Except.error "PermissionError" ∧
    updateHeadersPerm H0 c9perm ["a.py"] [] c9fs ["a.py"] =
      Except.error "FileNotFoundError" :=
  ⟨((claim_C9_unopenable_error apacheText wtoday wyear c9perm c9fs "a.py").1 rfl).1,
   (((claim_C9_unopenable_error apacheText wtoday wyear c9perm c9fs "r.py").2.1 (by decide)
      ⟨strL "x = 1\n", rfl⟩).2),
   (((claim_C9_unopenable_error apacheText wtoday wyear c9perm c9fs "w.py").2.2.1
      (strL "x = 1\n") rfl (by decide) (by decide)).1 (by decide)),
   ((claim_C9_unopenable_error apacheText wtoday wyear c9perm c9fs "a.py").2.2.2.1
      "FileNotFoundError"
      ((claim_C9_unopenable_error apacheText wtoday wyear c9perm c9fs "a.py").1 rfl).1
      ["a.py"] [] [] (by decide))⟩

/-- C9 counterexample: the header_updater_hook `check_header_added`, also
cited by the claim, silently creates a missing file (mode `w+`) and reports
it as successfully handled. -/
theorem claim_C9_cex_hook_creates :
    fsEmpty "a.py" = none ∧
    (hook_check_header_added hookH0 fsEmpty "a.py").map (fun r => (r.1 "a.py", r.2)) =
      Except.ok (some hookH0.cap_header, true) := ⟨rfl, rfl⟩

/-- C10: in the header_updater_hook variant the added-membership test of a
filename string against the diff-entry list is always false, so the added
branch (`check_header_added`) is never executed: the loop returns with the
untouched file system, the count `None` or 0, and the added-branch marker
false. -/
theorem claim_C10_hook_added_dead (a t y : List Char) (added modified : List DiffEntry)
    (fs : FS) (files : List String) (f : String) :
    hookMem f added = false ∧
    hook_update_headers (hookMkHeaders a t y) added modified fs files =
      Except.ok (fs, (if files.isEmpty then none else some 0), false) := by
  refine ⟨lem_hookMem_false f added, ?_⟩
  cases files with
  | nil => rfl
  | cons g rest =>
    simp [hook_update_headers, lem_hookMem_false, List.isEmpty]
